import Mathlib

/-!
Verification of the flight-booking simulator.

The repository ships the React frontend (`src/frontend/src/App.jsx` and
components); the reservation/payment core described by the design document
is consumed through its HTTP API and its implementation is not part of the
checked-in sources.  The frontend logic is embedded directly from
`App.jsx`; the core (Seat Inventory, Hold Manager, Payment Processor,
cancellation) is modelled from the design document, as stated on each
definition.
-/

/-! ## Frontend: seat selection and passenger list (`src/frontend/src/App.jsx`) -/

/-- A seat as rendered by the seat map (`seatMap` entries in `App.jsx`). -/
structure SeatUI where
  seat_number : String
  cabin_class : String
  price : Nat
  is_reserved : Bool
deriving DecidableEq

/-- `toggleSeat` from `App.jsx` (lines 99–111): a reserved seat is ignored;
an already selected seat number is removed from the selection; otherwise the
seat is appended to the selection. -/
def toggleSeat (seat : SeatUI) (selectedSeats : List SeatUI) : List SeatUI :=
  if seat.is_reserved then selectedSeats
  else
    match selectedSeats.find? (fun s => s.seat_number == seat.seat_number) with
    | some _ => selectedSeats.filter (fun s => s.seat_number != seat.seat_number)
    | none => selectedSeats ++ [seat]

/-- The selection produced by a sequence of `toggleSeat` clicks, starting from
the empty selection (`selectedSeats` is initialised to `[]`). -/
def selectionAfter (clicks : List SeatUI) : List SeatUI :=
  clicks.foldl (fun sel seat => toggleSeat seat sel) []

/-- A passenger form entry (`{ full_name: "", age: "", gender: "" }`). -/
structure PassengerForm where
  full_name : String
  age : String
  gender : String
deriving DecidableEq

/-- The blank passenger entry appended by the `useEffect` in `App.jsx`. -/
def blankPassenger : PassengerForm := ⟨"", "", ""⟩

/-- The `useEffect` on `seatsNeeded` in `App.jsx` (lines 37–48): pads the
passenger list with blank entries up to the number of selected seats, or
truncates it to that number. -/
def resizePassengers (seatsNeeded : Nat) (prev : List PassengerForm) :
    List PassengerForm :=
  if seatsNeeded > prev.length then
    prev ++ List.replicate (seatsNeeded - prev.length) blankPassenger
  else
    prev.take seatsNeeded

/-! ## Core data model

Modelled from the spec: the reservation/payment core (Seat Inventory, Hold
Manager, Booking state machine, Payment Processor, cancellation) is not among
the checked-in sources; the definitions below follow the design document's
§3 data model and §4 component contracts.  Timestamps are absolute instants
(`Nat`); prices and monetary amounts are whole currency units (`Nat`). -/

/-- Modelled from the spec: a Seat record of the Seat Inventory (§3): seat
number unique within its flight, cabin class, price, reservation flag, and
nullable owning booking id. -/
structure Seat where
  seat_number : String
  cabin_class : String
  price : Nat
  is_reserved : Bool
  booking_id : Option Nat
deriving DecidableEq

/-- Modelled from the spec: a Flight (§3) with its seat records and the
derived `seats_left`. -/
structure Flight where
  id : Nat
  origin : String
  destination : String
  seats : List Seat
  seats_left : Nat
deriving DecidableEq

/-- Modelled from the spec: the booking status set (§3). -/
inductive BookingStatus where
  | HELD
  | PAID
  | FAILED
  | CANCELLED
  | EXPIRED
deriving DecidableEq

/-- Modelled from the spec: booking contact information (§3). -/
structure Contact where
  name : String
  email : String
  phone : String
deriving DecidableEq

/-- Modelled from the spec: a Passenger, existing only as part of a Booking
(§3). -/
structure Passenger where
  full_name : String
  age : Option Nat
  gender : Option String
deriving DecidableEq

/-- Modelled from the spec: a Booking record (§3).  `seats` carries the
seat-number snapshots of the reserved seats; `pnr` and `payment_reference`
are confirmation identifiers drawn from a counter. -/
structure Booking where
  id : Nat
  flight_id : Nat
  contact : Contact
  passengers : List Passenger
  seats : List String
  currency : String
  total_amount : Nat
  status : BookingStatus
  hold_expires_at : Option Nat
  pnr : Option Nat
  payment_reference : Option Nat
deriving DecidableEq

/-- Modelled from the spec: the error kinds of §7. -/
inductive BError where
  | NotFound
  | Conflict
  | Validation
  | Expired
deriving DecidableEq

/-- Modelled from the spec: the core's shared state: flight inventory, the
booking directory (newest first), and the id/reference counters. -/
structure SystemState where
  flights : List Flight
  bookings : List Booking
  next_booking_id : Nat
  next_ref : Nat
deriving DecidableEq

/-! ## Core operations -/

/-- Modelled from the spec (§4.1): `seats_left` on a Flight is recomputed
from the count of unreserved seats after every reserve/release. -/
def recompute (f : Flight) : Flight :=
  { f with seats_left := f.seats.countP (fun st => !st.is_reserved) }

/-- Modelled from the spec (§4.1): mark the requested seats of a flight as
reserved by a booking. -/
def reserveSeat (ns : List String) (bid : Nat) (st : Seat) : Seat :=
  if st.seat_number ∈ ns then
    { st with is_reserved := true, booking_id := some bid }
  else st

/-- Modelled from the spec (§4.1): clear reservation flag and owning booking
id of the named seats. -/
def releaseSeat (ns : List String) (st : Seat) : Seat :=
  if st.seat_number ∈ ns then
    { st with is_reserved := false, booking_id := none }
  else st

/-- Apply a per-seat update to one flight's seats and recompute its
`seats_left`. -/
def mapSeats (σ : Seat → Seat) (f : Flight) : Flight :=
  recompute { f with seats := f.seats.map σ }

/-- Update the flight with the given id, leaving the others unchanged. -/
def updateFlight (fid : Nat) (g : Flight → Flight) (flights : List Flight) :
    List Flight :=
  flights.map (fun f => if f.id = fid then g f else f)

/-- Whether a flight has a seat with the given seat number. -/
def hasSeat (f : Flight) (n : String) : Bool :=
  f.seats.any (fun st => st.seat_number == n)

/-- A seat blocking a reservation request: it is requested, reserved, and
owned by a different booking (§4.1). -/
def seatConflict (ns : List String) (bid : Nat) (st : Seat) : Prop :=
  st.seat_number ∈ ns ∧ st.is_reserved = true ∧ st.booking_id ≠ some bid

instance (ns : List String) (bid : Nat) (st : Seat) :
    Decidable (seatConflict ns bid st) := by
  unfold seatConflict; infer_instance

/-- Modelled from the spec (§4.1): `reserve(flightId, seatNumbers, bookingId)`
returns Conflict if any requested seat is already reserved by a different
booking, NotFound if the flight or a requested seat does not exist, and
otherwise atomically marks the requested seats reserved and recomputes
`seats_left`. -/
def reserve (fid : Nat) (ns : List String) (bid : Nat)
    (flights : List Flight) : Except BError (List Flight) :=
  match flights.find? (fun f => f.id == fid) with
  | none => .error .NotFound
  | some f =>
      if ∃ st ∈ f.seats, seatConflict ns bid st then .error .Conflict
      else if ¬ (∀ n ∈ ns, hasSeat f n = true) then .error .NotFound
      else .ok (updateFlight fid (mapSeats (reserveSeat ns bid)) flights)

/-- Modelled from the spec (§4.1): `release(flightId, seatNumbers)` clears
`is_reserved` and the owning booking id of the named seats and recomputes
`seats_left`; releasing already-released seats is a no-op. -/
def release (fid : Nat) (ns : List String) (flights : List Flight) :
    List Flight :=
  updateFlight fid (mapSeats (releaseSeat ns)) flights

/-- Split a character list at its first `@`, returning the parts before and
after it. -/
def splitLocal : List Char → Option (List Char × List Char)
  | [] => none
  | c :: rest =>
      if c == '@' then some ([], rest)
      else
        match splitLocal rest with
        | some (l, d) => some (c :: l, d)
        | none => none

/-- Modelled from the spec (§4.2): syntactic email validity: exactly one `@`
sign separating a non-empty local part from a non-empty domain that contains
a dot. -/
def validEmail (e : String) : Bool :=
  match splitLocal e.data with
  | some (l, d) =>
      !l.isEmpty && !d.isEmpty && d.all (fun c => !(c == '@')) &&
        d.any (fun c => c == '.')
  | none => false

/-- Modelled from the spec (§4.2): the price of a named seat of a flight at
the current instant. -/
def seatPrice (f : Flight) (n : String) : Nat :=
  ((f.seats.find? (fun st => st.seat_number == n)).map Seat.price).getD 0

/-- Modelled from the spec (§4.2): `total_amount` is the sum of the requested
seats' prices, snapshotted at hold time. -/
def seatTotal (f : Flight) (ns : List String) : Nat :=
  (ns.map (seatPrice f)).sum

/-- Modelled from the spec (§4.2): `placeHold` validates the request
(flight exists → NotFound otherwise; positive seat count, matching passenger
count, non-empty contact name, valid email → Validation otherwise),
atomically reserves the seats, and creates a HELD Booking with the price
snapshot and `hold_expires_at = now + holdMinutes`; on any error the state is
returned unchanged. -/
def placeHold (fid : Nat) (c : Contact) (ps : List Passenger)
    (ns : List String) (holdMinutes : Nat) (now : Nat) (s : SystemState) :
    Except BError Booking × SystemState :=
  match s.flights.find? (fun f => f.id == fid) with
  | none => (.error .NotFound, s)
  | some f =>
      if ns.length = 0 ∨ ps.length ≠ ns.length ∨ c.name = "" ∨
          validEmail c.email = false then
        (.error .Validation, s)
      else
        match reserve fid ns s.next_booking_id s.flights with
        | .error e => (.error e, s)
        | .ok flights' =>
            let b : Booking :=
              { id := s.next_booking_id,
                flight_id := fid,
                contact := c,
                passengers := ps,
                seats := ns,
                currency := "INR",
                total_amount := seatTotal f ns,
                status := .HELD,
                hold_expires_at := some (now + holdMinutes),
                pnr := none,
                payment_reference := none }
            (.ok b,
             { s with
               flights := flights',
               bookings := b :: s.bookings,
               next_booking_id := s.next_booking_id + 1 })

/-- Modelled from the spec (§4.4): a resolved payment outcome — either the
forced outcome or the result of the pluggable decision rule. -/
inductive POutcome where
  | SUCCESS
  | FAIL
deriving DecidableEq

/-- Replace the booking with the given id, leaving the others unchanged. -/
def updateBooking (bid : Nat) (b' : Booking) (bs : List Booking) :
    List Booking :=
  bs.map (fun b => if b.id = bid then b' else b)

/-- Modelled from the spec (§4.4): finalize a payment attempt on a HELD or
FAILED booking: on SUCCESS assign a fresh PNR and payment reference and set
status PAID; on FAIL assign a payment reference and set status FAILED; seats
are not touched. -/
def finalize (b : Booking) (o : POutcome) (s : SystemState) :
    Except BError Booking × SystemState :=
  match o with
  | .SUCCESS =>
      let b' :=
        { b with
          status := .PAID,
          pnr := some s.next_ref,
          payment_reference := some s.next_ref }
      (.ok b',
       { s with
         bookings := updateBooking b.id b' s.bookings,
         next_ref := s.next_ref + 1 })
  | .FAIL =>
      let b' :=
        { b with
          status := .FAILED,
          payment_reference := some s.next_ref }
      (.ok b',
       { s with
         bookings := updateBooking b.id b' s.bookings,
         next_ref := s.next_ref + 1 })

/-- Modelled from the spec (§4.4): `pay` fails with NotFound if the booking
is missing, with Conflict if its status is not HELD or FAILED; a HELD booking
whose `hold_expires_at` has passed is first transitioned to EXPIRED with its
seats released, and Expired is reported instead of charging; otherwise the
resolved outcome is applied. -/
def pay (bid : Nat) (o : POutcome) (now : Nat) (s : SystemState) :
    Except BError Booking × SystemState :=
  match s.bookings.find? (fun b => b.id == bid) with
  | none => (.error .NotFound, s)
  | some b =>
      match b.status with
      | .HELD =>
          match b.hold_expires_at with
          | some t =>
              if t ≤ now then
                let b' := { b with status := .EXPIRED }
                (.error .Expired,
                 { s with
                   bookings := updateBooking b.id b' s.bookings,
                   flights := release b.flight_id b.seats s.flights })
              else finalize b o s
          | none => finalize b o s
      | .FAILED => finalize b o s
      | _ => (.error .Conflict, s)

/-- Modelled from the spec (§4.5): `cancel` is allowed only from HELD or
FAILED: it releases the booking's seats and sets status CANCELLED; on a
PAID, CANCELLED, or EXPIRED booking it fails with Conflict and changes
nothing. -/
def cancel (bid : Nat) (s : SystemState) :
    Except BError Booking × SystemState :=
  match s.bookings.find? (fun b => b.id == bid) with
  | none => (.error .NotFound, s)
  | some b =>
      match b.status with
      | .HELD | .FAILED =>
          let b' := { b with status := .CANCELLED }
          (.ok b',
           { s with
             bookings := updateBooking b.id b' s.bookings,
             flights := release b.flight_id b.seats s.flights })
      | _ => (.error .Conflict, s)

/-- Modelled from the spec: a dynamic-pricing update of one seat's price.
It touches only the named seat's `price` field; bookings are not involved. -/
def setSeatPrice (fid : Nat) (n : String) (p : Nat) (s : SystemState) :
    SystemState :=
  { s with
    flights :=
      updateFlight fid
        (fun f =>
          { f with
            seats := f.seats.map (fun st =>
              if st.seat_number = n then { st with price := p } else st) })
        s.flights }

/-! ## Reachability -/

/-- An initial state: an empty booking directory and a fresh inventory —
no seat reserved or owned, `seats_left` consistent, ids and seat numbers
unique. -/
structure InitOk (s : SystemState) : Prop where
  noBookings : s.bookings = []
  fresh : ∀ f ∈ s.flights, ∀ st ∈ f.seats,
      st.is_reserved = false ∧ st.booking_id = none
  left : ∀ f ∈ s.flights,
      f.seats_left = f.seats.countP (fun st => !st.is_reserved)
  fnodup : (s.flights.map Flight.id).Nodup
  snodup : ∀ f ∈ s.flights, (f.seats.map Seat.seat_number).Nodup

/-- States reachable from an initial state by the core's operations.  Failed
operations also step (they return the — possibly updated — state). -/
inductive Reachable : SystemState → Prop where
  | init (s : SystemState) : InitOk s → Reachable s
  | hold (fid : Nat) (c : Contact) (ps : List Passenger) (ns : List String)
      (hm now : Nat) (s : SystemState) : Reachable s →
      Reachable (placeHold fid c ps ns hm now s).2
  | payment (bid : Nat) (o : POutcome) (now : Nat) (s : SystemState) :
      Reachable s → Reachable (pay bid o now s).2
  | cancellation (bid : Nat) (s : SystemState) : Reachable s →
      Reachable (cancel bid s).2

/-! ## The inventory/booking invariant -/

/-- Statuses under which a booking's seat claims are live: HELD, PAID and
FAILED keep the seats reserved; CANCELLED and EXPIRED have released them. -/
def activeStatus : BookingStatus → Bool
  | .HELD => true
  | .PAID => true
  | .FAILED => true
  | .CANCELLED => false
  | .EXPIRED => false

/-- The inductive invariant of the core state: unique flight ids, seat
numbers and booking ids; `seats_left` consistent; every owned seat is
reserved and owned by exactly one live booking that lists it; every reserved
seat has an owner; and every live booking's listed seats exist and point
back at it. -/
structure CoreInv (s : SystemState) : Prop where
  fnodup : (s.flights.map Flight.id).Nodup
  snodup : ∀ f ∈ s.flights, (f.seats.map Seat.seat_number).Nodup
  left : ∀ f ∈ s.flights,
      f.seats_left = f.seats.countP (fun st => !st.is_reserved)
  bbound : ∀ b ∈ s.bookings, b.id < s.next_booking_id
  bnodup : (s.bookings.map Booking.id).Nodup
  owner : ∀ f ∈ s.flights, ∀ st ∈ f.seats, ∀ bid, st.booking_id = some bid →
      st.is_reserved = true ∧
      ∃ b ∈ s.bookings, b.id = bid ∧ activeStatus b.status = true ∧
        b.flight_id = f.id ∧ st.seat_number ∈ b.seats
  resOwner : ∀ f ∈ s.flights, ∀ st ∈ f.seats, st.is_reserved = true →
      st.booking_id.isSome = true
  claims : ∀ b ∈ s.bookings, activeStatus b.status = true → ∀ n ∈ b.seats,
      ∃ f ∈ s.flights, f.id = b.flight_id ∧ ∃ st ∈ f.seats,
        st.seat_number = n ∧ st.booking_id = some b.id

/-! ## Concrete sample data (used by the witnesses) -/

/-- Seat A1, priced 100, of the sample flight. -/
def seatA1 : Seat := ⟨"A1", "ECONOMY", 100, false, none⟩

/-- Seat A2, priced 120, of the sample flight. -/
def seatA2 : Seat := ⟨"A2", "ECONOMY", 120, false, none⟩

/-- The sample flight with two free seats. -/
def flight1 : Flight := ⟨1, "VIDP", "VABB", [seatA1, seatA2], 2⟩

/-- A fresh initial state: one flight, no bookings. -/
def state0 : SystemState := ⟨[flight1], [], 1, 1⟩

/-- A sample contact with a syntactically valid email. -/
def contact0 : Contact := ⟨"Asha", "asha@example.com", "999"⟩

/-- A sample passenger. -/
def pax1 : Passenger := ⟨"Asha", some 30, none⟩

/-- A second sample passenger. -/
def pax2 : Passenger := ⟨"Ravi", some 32, none⟩

/-- The state after holding both seats of the sample flight at time 0 with a
15-unit hold: booking 1 is HELD with `hold_expires_at = some 15`. -/
def stateHeld : SystemState :=
  (placeHold 1 contact0 [pax1, pax2] ["A1", "A2"] 15 0 state0).2

/-- The state after a forced-FAIL payment on the held sample booking. -/
def stateFailed : SystemState := (pay 1 .FAIL 5 stateHeld).2

/-- The state after a forced-SUCCESS payment on the held sample booking. -/
def statePaid : SystemState := (pay 1 .SUCCESS 5 stateHeld).2

/-- The sample flight as it stands inside `stateHeld`: both seats reserved
by booking 1. -/
def flight1Held : Flight :=
  ⟨1, "VIDP", "VABB",
    [⟨"A1", "ECONOMY", 100, true, some 1⟩,
     ⟨"A2", "ECONOMY", 120, true, some 1⟩], 0⟩

/-- Seat A1 as it stands inside `stateHeld`. -/
def seatA1Held : Seat := ⟨"A1", "ECONOMY", 100, true, some 1⟩

/-- The sample booking as created by the hold. -/
def bookingHeld : Booking :=
  ⟨1, 1, contact0, [pax1, pax2], ["A1", "A2"], "INR", 220, .HELD,
    some 15, none, none⟩

/-- The sample booking after a forced-FAIL payment. -/
def bookingFailed : Booking :=
  ⟨1, 1, contact0, [pax1, pax2], ["A1", "A2"], "INR", 220, .FAILED,
    some 15, none, some 1⟩

/-! ## Frontend theorems (C9, C10) -/

theorem toggleSeat_reserved (seat : SeatUI) (sel : List SeatUI)
    (h : seat.is_reserved = true) : toggleSeat seat sel = sel := by
  simp [toggleSeat, h]

theorem toggleSeat_no_reserved (seat : SeatUI) (sel : List SeatUI)
    (h : ∀ s ∈ sel, s.is_reserved = false) :
    ∀ s ∈ toggleSeat seat sel, s.is_reserved = false := by
  intro s hs
  by_cases hr : seat.is_reserved
  · rw [toggleSeat_reserved seat sel hr] at hs
    exact h s hs
  · simp only [toggleSeat, if_neg hr] at hs
    rcases hfind : sel.find? (fun s => s.seat_number == seat.seat_number) with _ | w
    · rw [hfind] at hs
      rcases List.mem_append.1 hs with h1 | h1
      · exact h s h1
      · rcases List.mem_singleton.1 h1 with rfl
        exact Bool.eq_false_iff.2 hr
    · rw [hfind] at hs
      exact h s (List.mem_of_mem_filter hs)

/-- C9: in the App component, `toggleSeat` applied to a reserved seat leaves
the selection unchanged, and consequently no sequence of `toggleSeat` clicks
ever puts a reserved seat into the selected-seat list. -/
theorem c9_toggleSeat_never_selects_reserved :
    (∀ seat sel, seat.is_reserved = true → toggleSeat seat sel = sel) ∧
    (∀ clicks : List SeatUI, ∀ s ∈ selectionAfter clicks,
      s.is_reserved = false) := by
  refine ⟨toggleSeat_reserved, ?_⟩
  intro clicks
  suffices h : ∀ sel : List SeatUI, (∀ s ∈ sel, s.is_reserved = false) →
      ∀ s ∈ clicks.foldl (fun sel seat => toggleSeat seat sel) sel,
        s.is_reserved = false by
    exact h [] (by intro s hs; cases hs)
  induction clicks with
  | nil => intro sel hsel; exact hsel
  | cons c cs ih =>
      intro sel hsel
      exact ih (toggleSeat c sel) (toggleSeat_no_reserved c sel hsel)

/-- C10: the passenger-list resize effect in the App component always yields a
list whose length equals the number of selected seats; added entries are blank
and appended at the end, removals drop trailing entries, and all surviving
entries are preserved unchanged. -/
theorem c10_resizePassengers_spec (n : Nat) (prev : List PassengerForm) :
    (resizePassengers n prev).length = n ∧
    (∀ i, i < prev.length → i < n →
      (resizePassengers n prev)[i]? = prev[i]?) ∧
    (∀ i, prev.length ≤ i → i < n →
      (resizePassengers n prev)[i]? = some blankPassenger) ∧
    (n ≤ prev.length → resizePassengers n prev = prev.take n) := by
  refine ⟨?_, ?_, ?_, ?_⟩
  · by_cases h : n > prev.length
    · simp [resizePassengers, h]
      omega
    · simp only [resizePassengers, if_neg h, List.length_take]
      omega
  · intro i hip hin
    by_cases h : n > prev.length
    · simp only [resizePassengers, if_pos h]
      exact List.getElem?_append_left hip
    · simp only [resizePassengers, if_neg h]
      exact List.getElem?_take_of_lt hin
  · intro i hpi hin
    have h : n > prev.length := Nat.lt_of_le_of_lt hpi hin
    simp only [resizePassengers, if_pos h]
    rw [List.getElem?_append_right hpi]
    exact List.getElem?_replicate_of_lt (by omega)
  · intro h
    simp [resizePassengers, Nat.not_lt.2 h]

/-- C9 witness: a concrete reserved seat is rejected by `toggleSeat`, and the
seat reached by a concrete click sequence is unreserved. -/
theorem c9_witness :
    toggleSeat ⟨"A1", "ECONOMY", 100, true⟩ [⟨"A2", "ECONOMY", 120, false⟩] =
      [⟨"A2", "ECONOMY", 120, false⟩] ∧
    (⟨"A2", "ECONOMY", 120, false⟩ : SeatUI).is_reserved = false :=
  ⟨c9_toggleSeat_never_selects_reserved.1 ⟨"A1", "ECONOMY", 100, true⟩
      [⟨"A2", "ECONOMY", 120, false⟩] rfl,
    c9_toggleSeat_never_selects_reserved.2
      [⟨"A1", "ECONOMY", 100, true⟩, ⟨"A2", "ECONOMY", 120, false⟩]
      ⟨"A2", "ECONOMY", 120, false⟩ (by decide)⟩

/-- C10 witness: resizing a one-entry passenger list to two seats keeps the
first entry and appends a blank one. -/
theorem c10_witness :
    (resizePassengers 2 [⟨"A", "30", "MALE"⟩]).length = 2 ∧
    (resizePassengers 2 [⟨"A", "30", "MALE"⟩])[0]? =
      some ⟨"A", "30", "MALE"⟩ ∧
    (resizePassengers 2 [⟨"A", "30", "MALE"⟩])[1]? = some blankPassenger :=
  ⟨(c10_resizePassengers_spec 2 [⟨"A", "30", "MALE"⟩]).1,
    (c10_resizePassengers_spec 2 [⟨"A", "30", "MALE"⟩]).2.1 0 (by decide)
      (by decide),
    (c10_resizePassengers_spec 2 [⟨"A", "30", "MALE"⟩]).2.2.1 1 (by decide)
      (by decide)⟩

/-! ## Structural lemmas about the inventory helpers -/

theorem reserveSeat_number (ns : List String) (bid : Nat) (st : Seat) :
    (reserveSeat ns bid st).seat_number = st.seat_number := by
  unfold reserveSeat; split <;> rfl

theorem releaseSeat_number (ns : List String) (st : Seat) :
    (releaseSeat ns st).seat_number = st.seat_number := by
  unfold releaseSeat; split <;> rfl

theorem mapSeats_id (σ : Seat → Seat) (f : Flight) :
    (mapSeats σ f).id = f.id := rfl

theorem mapSeats_seats (σ : Seat → Seat) (f : Flight) :
    (mapSeats σ f).seats = f.seats.map σ := rfl

theorem mapSeats_left (σ : Seat → Seat) (f : Flight) :
    (mapSeats σ f).seats_left =
      (f.seats.map σ).countP (fun st => !st.is_reserved) := rfl

theorem mem_updateFlight {fid : Nat} {g : Flight → Flight} {l : List Flight}
    {x : Flight} (hx : x ∈ updateFlight fid g l) :
    ∃ f ∈ l, (f.id = fid ∧ x = g f) ∨ (f.id ≠ fid ∧ x = f) := by
  obtain ⟨f, hf, hfx⟩ := List.mem_map.1 hx
  refine ⟨f, hf, ?_⟩
  by_cases h : f.id = fid
  · exact Or.inl ⟨h, by rw [← hfx, if_pos h]⟩
  · exact Or.inr ⟨h, by rw [← hfx, if_neg h]⟩

theorem updateFlight_mem_of_ne {fid : Nat} {g : Flight → Flight}
    {l : List Flight} {f : Flight} (hf : f ∈ l) (h : f.id ≠ fid) :
    f ∈ updateFlight fid g l :=
  List.mem_map.2 ⟨f, hf, by rw [if_neg h]⟩

theorem updateFlight_mem_of_eq {fid : Nat} {g : Flight → Flight}
    {l : List Flight} {f : Flight} (hf : f ∈ l) (h : f.id = fid) :
    g f ∈ updateFlight fid g l :=
  List.mem_map.2 ⟨f, hf, by rw [if_pos h]⟩

theorem updateFlight_map_id {fid : Nat} {g : Flight → Flight}
    {l : List Flight} (h : ∀ f, (g f).id = f.id) :
    (updateFlight fid g l).map Flight.id = l.map Flight.id := by
  unfold updateFlight
  rw [List.map_map]
  apply List.map_congr_left
  intro f _
  by_cases hf : f.id = fid
  · simp [hf, h f]
  · simp [hf]

theorem mem_updateBooking {bid : Nat} {b' : Booking} {l : List Booking}
    {x : Booking} (hx : x ∈ updateBooking bid b' l) :
    ∃ b ∈ l, (b.id = bid ∧ x = b') ∨ (b.id ≠ bid ∧ x = b) := by
  obtain ⟨b, hb, hbx⟩ := List.mem_map.1 hx
  refine ⟨b, hb, ?_⟩
  by_cases h : b.id = bid
  · exact Or.inl ⟨h, by rw [← hbx, if_pos h]⟩
  · exact Or.inr ⟨h, by rw [← hbx, if_neg h]⟩

theorem updateBooking_mem_of_ne {bid : Nat} {b' : Booking} {l : List Booking}
    {b : Booking} (hb : b ∈ l) (h : b.id ≠ bid) :
    b ∈ updateBooking bid b' l :=
  List.mem_map.2 ⟨b, hb, by rw [if_neg h]⟩

theorem updateBooking_mem_of_eq {bid : Nat} {b' : Booking} {l : List Booking}
    {b : Booking} (hb : b ∈ l) (h : b.id = bid) :
    b' ∈ updateBooking bid b' l :=
  List.mem_map.2 ⟨b, hb, by rw [if_pos h]⟩

theorem updateBooking_map_id {bid : Nat} {b' : Booking} {l : List Booking}
    (h : b'.id = bid) :
    (updateBooking bid b' l).map Booking.id = l.map Booking.id := by
  unfold updateBooking
  rw [List.map_map]
  apply List.map_congr_left
  intro b _
  by_cases hb : b.id = bid
  · simp [hb, h]
  · simp [hb]

theorem seatnum_map_reserve (ns : List String) (bid : Nat) (l : List Seat) :
    (l.map (reserveSeat ns bid)).map Seat.seat_number =
      l.map Seat.seat_number := by
  rw [List.map_map]
  apply List.map_congr_left
  intro st _
  simp [Function.comp, reserveSeat_number]

theorem seatnum_map_release (ns : List String) (l : List Seat) :
    (l.map (releaseSeat ns)).map Seat.seat_number =
      l.map Seat.seat_number := by
  rw [List.map_map]
  apply List.map_congr_left
  intro st _
  simp [Function.comp, releaseSeat_number]

/-! ## Semantic lemmas about the invariant -/

theorem flight_id_inj {s : SystemState} (hI : CoreInv s) {f₁ f₂ : Flight}
    (h₁ : f₁ ∈ s.flights) (h₂ : f₂ ∈ s.flights) (h : f₁.id = f₂.id) :
    f₁ = f₂ :=
  List.inj_on_of_nodup_map hI.fnodup h₁ h₂ h

theorem booking_id_inj {s : SystemState} (hI : CoreInv s) {b₁ b₂ : Booking}
    (h₁ : b₁ ∈ s.bookings) (h₂ : b₂ ∈ s.bookings) (h : b₁.id = b₂.id) :
    b₁ = b₂ :=
  List.inj_on_of_nodup_map hI.bnodup h₁ h₂ h

theorem seat_number_inj {s : SystemState} (hI : CoreInv s) {f : Flight}
    (hf : f ∈ s.flights) {st₁ st₂ : Seat} (h₁ : st₁ ∈ f.seats)
    (h₂ : st₂ ∈ f.seats) (h : st₁.seat_number = st₂.seat_number) : st₁ = st₂ :=
  List.inj_on_of_nodup_map (hI.snodup f hf) h₁ h₂ h

theorem no_owner_ge {s : SystemState} (hI : CoreInv s) {f : Flight} {st : Seat}
    {bid : Nat} (hf : f ∈ s.flights) (hst : st ∈ f.seats)
    (hge : s.next_booking_id ≤ bid) : st.booking_id ≠ some bid := by
  intro h
  obtain ⟨-, b, hb, hbid, -, -, -⟩ := hI.owner f hf st hst bid h
  have := hI.bbound b hb
  omega

theorem owned_of_claim {s : SystemState} (hI : CoreInv s) {b : Booking}
    (hb : b ∈ s.bookings) (hact : activeStatus b.status = true) {f : Flight}
    (hf : f ∈ s.flights) (hfid : f.id = b.flight_id) {st : Seat}
    (hst : st ∈ f.seats) (hmem : st.seat_number ∈ b.seats) :
    st.booking_id = some b.id := by
  obtain ⟨f₁, hf₁, hfid₁, st₁, hst₁, hnum₁, hown₁⟩ :=
    hI.claims b hb hact st.seat_number hmem
  have hff : f = f₁ := flight_id_inj hI hf hf₁ (by rw [hfid, hfid₁])
  subst hff
  have hss : st = st₁ := seat_number_inj hI hf hst hst₁ hnum₁.symm
  rw [hss, hown₁]

theorem initOk_inv {s : SystemState} (h : InitOk s) : CoreInv s := by
  refine ⟨h.fnodup, h.snodup, h.left, ?_, ?_, ?_, ?_, ?_⟩
  · intro b hb
    rw [h.noBookings] at hb
    cases hb
  · rw [h.noBookings]
    exact List.nodup_nil
  · intro f hf st hst bid hbid
    have := (h.fresh f hf st hst).2
    rw [this] at hbid
    cases hbid
  · intro f hf st hst hres
    have := (h.fresh f hf st hst).1
    rw [this] at hres
    cases hres
  · intro b hb
    rw [h.noBookings] at hb
    cases hb

theorem reserve_ok_elim {fid : Nat} {ns : List String} {bid : Nat}
    {flights flights' : List Flight}
    (h : reserve fid ns bid flights = .ok flights') :
    ∃ f, flights.find? (fun f => f.id == fid) = some f ∧
      (¬ ∃ st ∈ f.seats, seatConflict ns bid st) ∧
      (∀ n ∈ ns, hasSeat f n = true) ∧
      flights' = updateFlight fid (mapSeats (reserveSeat ns bid)) flights := by
  unfold reserve at h
  split at h
  · cases h
  · rename_i f hfind
    split_ifs at h with h1 h2
    injection h with h3
    exact ⟨f, hfind, h1, h2, h3.symm⟩

theorem inv_hold_ok {s : SystemState} (hI : CoreInv s) {fid : Nat}
    {ns : List String} {flights' : List Flight} {bNew : Booking}
    (hres : reserve fid ns s.next_booking_id s.flights = .ok flights')
    (hb1 : bNew.id = s.next_booking_id) (hb2 : bNew.flight_id = fid)
    (hb3 : bNew.seats = ns) (hb4 : bNew.status = .HELD) :
    CoreInv
      { s with
        flights := flights',
        bookings := bNew :: s.bookings,
        next_booking_id := s.next_booking_id + 1 } := by
  obtain ⟨f, hfind, hnc, hex, hup⟩ := reserve_ok_elim hres
  subst hup
  have hfmem : f ∈ s.flights := List.mem_of_find?_eq_some hfind
  have hfid : f.id = fid := by simpa using List.find?_some hfind
  have hfree : ∀ st ∈ f.seats, st.seat_number ∈ ns →
      st.is_reserved = false ∧ st.booking_id = none := by
    intro st hst hmem
    have hbidnone : st.booking_id = none := by
      cases hbid : st.booking_id with
      | none => rfl
      | some bid' =>
          obtain ⟨hres', b, hb, hbid', -, -, -⟩ :=
            hI.owner f hfmem st hst bid' hbid
          have hlt : bid' < s.next_booking_id := by
            rw [← hbid']
            exact hI.bbound b hb
          refine absurd ⟨st, hst, hmem, hres', ?_⟩ hnc
          rw [hbid]
          intro heq
          injection heq with heq'
          omega
    have hresf : st.is_reserved = false := by
      cases hsr : st.is_reserved with
      | true =>
          have := hI.resOwner f hfmem st hst hsr
          rw [hbidnone] at this
          cases this
      | false => rfl
    exact ⟨hresf, hbidnone⟩
  refine ⟨?_, ?_, ?_, ?_, ?_, ?_, ?_, ?_⟩
  · show ((updateFlight fid (mapSeats (reserveSeat ns s.next_booking_id))
      s.flights).map Flight.id).Nodup
    rw [updateFlight_map_id
      (g := mapSeats (reserveSeat ns s.next_booking_id)) (fun f => rfl)]
    exact hI.fnodup
  · intro f' hf'
    obtain ⟨f₀, hf₀, hcase⟩ := mem_updateFlight hf'
    rcases hcase with ⟨hfid₀, rfl⟩ | ⟨-, rfl⟩
    · rw [mapSeats_seats, seatnum_map_reserve]
      exact hI.snodup f₀ hf₀
    · exact hI.snodup _ hf₀
  · intro f' hf'
    obtain ⟨f₀, hf₀, hcase⟩ := mem_updateFlight hf'
    rcases hcase with ⟨hfid₀, rfl⟩ | ⟨-, rfl⟩
    · rw [mapSeats_left, mapSeats_seats]
    · exact hI.left _ hf₀
  · intro b hb
    rcases List.mem_cons.1 hb with rfl | hb'
    · show b.id < s.next_booking_id + 1
      rw [hb1]
      omega
    · have := hI.bbound b hb'
      show b.id < s.next_booking_id + 1
      omega
  · show ((bNew :: s.bookings).map Booking.id).Nodup
    rw [List.map_cons, List.nodup_cons]
    constructor
    · intro hmem
      obtain ⟨b, hb, hbid⟩ := List.mem_map.1 hmem
      have := hI.bbound b hb
      rw [hbid, hb1] at this
      omega
    · exact hI.bnodup
  · intro f' hf' st' hst' bid hbid
    obtain ⟨f₀, hf₀, hcase⟩ := mem_updateFlight hf'
    rcases hcase with ⟨hfid₀, rfl⟩ | ⟨hne, rfl⟩
    · have hf₀f : f₀ = f := flight_id_inj hI hf₀ hfmem (hfid₀.trans hfid.symm)
      subst hf₀f
      rw [mapSeats_seats] at hst'
      obtain ⟨st, hst, rfl⟩ := List.mem_map.1 hst'
      by_cases hmem : st.seat_number ∈ ns
      · have hσ : reserveSeat ns s.next_booking_id st =
            { st with is_reserved := true,
                      booking_id := some s.next_booking_id } := by
          simp [reserveSeat, hmem]
        rw [hσ] at hbid ⊢
        have hbidN : bid = s.next_booking_id := by
          injection hbid with h
          exact h.symm
        refine ⟨rfl, bNew, List.mem_cons_self _ _, ?_, ?_, ?_, ?_⟩
        · rw [hb1, hbidN]
        · rw [hb4]
          rfl
        · rw [hb2, mapSeats_id, hfid]
        · rw [hb3]
          exact hmem
      · have hσ : reserveSeat ns s.next_booking_id st = st := by
          simp [reserveSeat, hmem]
        rw [hσ] at hbid ⊢
        obtain ⟨hres', b, hb, hbid', hact, hfl, hmem'⟩ :=
          hI.owner _ hfmem st hst bid hbid
        exact ⟨hres', b, List.mem_cons_of_mem _ hb, hbid', hact,
          by rw [mapSeats_id]; exact hfl, hmem'⟩
    · obtain ⟨hres', b, hb, hbid', hact, hfl, hmem'⟩ :=
        hI.owner _ hf₀ st' hst' bid hbid
      exact ⟨hres', b, List.mem_cons_of_mem _ hb, hbid', hact, hfl, hmem'⟩
  · intro f' hf' st' hst' hsr
    obtain ⟨f₀, hf₀, hcase⟩ := mem_updateFlight hf'
    rcases hcase with ⟨hfid₀, rfl⟩ | ⟨-, rfl⟩
    · have hf₀f : f₀ = f := flight_id_inj hI hf₀ hfmem (hfid₀.trans hfid.symm)
      subst hf₀f
      rw [mapSeats_seats] at hst'
      obtain ⟨st, hst, rfl⟩ := List.mem_map.1 hst'
      by_cases hmem : st.seat_number ∈ ns
      · simp [reserveSeat, hmem]
      · have hσ : reserveSeat ns s.next_booking_id st = st := by
          simp [reserveSeat, hmem]
        rw [hσ] at hsr ⊢
        exact hI.resOwner _ hfmem st hst hsr
    · exact hI.resOwner _ hf₀ st' hst' hsr
  · intro b hb hact n hn
    rcases List.mem_cons.1 hb with rfl | hb'
    · rw [hb3] at hn
      refine ⟨mapSeats (reserveSeat ns s.next_booking_id) f,
        updateFlight_mem_of_eq hfmem hfid, ?_, ?_⟩
      · rw [mapSeats_id, hfid, hb2]
      · have := hex n hn
        unfold hasSeat at this
        obtain ⟨st, hst, hnum⟩ := List.any_eq_true.1 this
        have hnum' : st.seat_number = n := by simpa using hnum
        refine ⟨reserveSeat ns s.next_booking_id st, ?_, ?_, ?_⟩
        · rw [mapSeats_seats]
          exact List.mem_map_of_mem _ hst
        · rw [reserveSeat_number]
          exact hnum'
        · have hmem : st.seat_number ∈ ns := by
            rw [hnum']
            exact hn
          simp [reserveSeat, hmem, hb1]
    · obtain ⟨f₁, hf₁, hfid₁, st, hst, hnum, hown⟩ :=
        hI.claims b hb' hact n hn
      by_cases hcase : f₁.id = fid
      · have hf₁f : f₁ = f := flight_id_inj hI hf₁ hfmem (hcase.trans hfid.symm)
        subst hf₁f
        have hnotmem : st.seat_number ∉ ns := by
          intro hmem
          have := (hfree st hst hmem).2
          rw [this] at hown
          cases hown
        have hσ : reserveSeat ns s.next_booking_id st = st := by
          simp [reserveSeat, hnotmem]
        refine ⟨mapSeats (reserveSeat ns s.next_booking_id) f₁,
          updateFlight_mem_of_eq hfmem hfid, ?_, ?_⟩
        · rw [mapSeats_id]
          exact hfid₁
        · refine ⟨reserveSeat ns s.next_booking_id st, ?_, ?_, ?_⟩
          · rw [mapSeats_seats]
            exact List.mem_map_of_mem _ hst
          · rw [hσ]
            exact hnum
          · rw [hσ]
            exact hown
      · exact ⟨f₁, updateFlight_mem_of_ne hf₁ hcase, hfid₁, st, hst, hnum, hown⟩

theorem inv_updateActive {s : SystemState} (hI : CoreInv s) {b b' : Booking}
    (hb : b ∈ s.bookings) (hact : activeStatus b.status = true)
    (hid : b'.id = b.id) (hfl : b'.flight_id = b.flight_id)
    (hseats : b'.seats = b.seats) (hact' : activeStatus b'.status = true)
    (r : Nat) :
    CoreInv
      { s with
        bookings := updateBooking b.id b' s.bookings,
        next_ref := r } := by
  refine ⟨hI.fnodup, hI.snodup, hI.left, ?_, ?_, ?_, hI.resOwner, ?_⟩
  · intro x hx
    obtain ⟨b₀, hb₀, hcase⟩ := mem_updateBooking hx
    rcases hcase with ⟨hbeq, hxeq⟩ | ⟨hne, hxeq⟩
    · subst hxeq
      rw [hid]
      exact hI.bbound b hb
    · subst hxeq
      exact hI.bbound _ hb₀
  · show ((updateBooking b.id b' s.bookings).map Booking.id).Nodup
    rw [updateBooking_map_id hid]
    exact hI.bnodup
  · intro f hf st hst bid hbid
    obtain ⟨hres, b₀, hb₀, hbid₀, hact₀, hfl₀, hmem₀⟩ :=
      hI.owner f hf st hst bid hbid
    by_cases hcase : b₀.id = b.id
    · have heq : b₀ = b := booking_id_inj hI hb₀ hb hcase
      refine ⟨hres, b', updateBooking_mem_of_eq hb rfl, ?_, hact', ?_, ?_⟩
      · rw [hid, ← hcase, hbid₀]
      · rw [hfl, ← heq, hfl₀]
      · rw [hseats, ← heq]
        exact hmem₀
    · exact ⟨hres, b₀, updateBooking_mem_of_ne hb₀ hcase, hbid₀, hact₀,
        hfl₀, hmem₀⟩
  · intro x hx hactx n hn
    obtain ⟨b₀, hb₀, hcase⟩ := mem_updateBooking hx
    rcases hcase with ⟨hbeq, hxeq⟩ | ⟨hne, hxeq⟩
    · subst hxeq
      rw [hseats] at hn
      obtain ⟨f₁, hf₁, hfid₁, st, hst, hnum, hown⟩ := hI.claims b hb hact n hn
      refine ⟨f₁, hf₁, ?_, st, hst, hnum, ?_⟩
      · rw [hfl]
        exact hfid₁
      · rw [hid]
        exact hown
    · subst hxeq
      exact hI.claims _ hb₀ hactx n hn

theorem inv_releaseBooking {s : SystemState} (hI : CoreInv s) {b : Booking}
    (hb : b ∈ s.bookings) (hact : activeStatus b.status = true)
    {stat : BookingStatus} (hstat : activeStatus stat = false) :
    CoreInv
      { s with
        bookings := updateBooking b.id { b with status := stat } s.bookings,
        flights := release b.flight_id b.seats s.flights } := by
  have hBowned : ∀ f₀ ∈ s.flights, f₀.id = b.flight_id →
      ∀ st ∈ f₀.seats, st.seat_number ∈ b.seats →
        st.booking_id = some b.id := by
    intro f₀ hf₀ hfid st hst hmem
    exact owned_of_claim hI hb hact hf₀ hfid hst hmem
  refine ⟨?_, ?_, ?_, ?_, ?_, ?_, ?_, ?_⟩
  · show ((updateFlight b.flight_id (mapSeats (releaseSeat b.seats))
      s.flights).map Flight.id).Nodup
    rw [updateFlight_map_id
      (g := mapSeats (releaseSeat b.seats)) (fun f => rfl)]
    exact hI.fnodup
  · intro f' hf'
    obtain ⟨f₀, hf₀, hcase⟩ := mem_updateFlight hf'
    rcases hcase with ⟨hfid₀, rfl⟩ | ⟨-, rfl⟩
    · rw [mapSeats_seats, seatnum_map_release]
      exact hI.snodup f₀ hf₀
    · exact hI.snodup _ hf₀
  · intro f' hf'
    obtain ⟨f₀, hf₀, hcase⟩ := mem_updateFlight hf'
    rcases hcase with ⟨hfid₀, rfl⟩ | ⟨-, rfl⟩
    · rw [mapSeats_left, mapSeats_seats]
    · exact hI.left _ hf₀
  · intro x hx
    obtain ⟨b₀, hb₀, hcase⟩ := mem_updateBooking hx
    rcases hcase with ⟨hbeq, hxeq⟩ | ⟨hne, hxeq⟩
    · subst hxeq
      exact hI.bbound b hb
    · subst hxeq
      exact hI.bbound _ hb₀
  · show ((updateBooking b.id { b with status := stat }
      s.bookings).map Booking.id).Nodup
    rw [updateBooking_map_id
      (show ({ b with status := stat } : Booking).id = b.id from rfl)]
    exact hI.bnodup
  · intro f' hf' st' hst' bid hbid
    obtain ⟨f₀, hf₀, hcase⟩ := mem_updateFlight hf'
    rcases hcase with ⟨hfid₀, rfl⟩ | ⟨hne, rfl⟩
    · rw [mapSeats_seats] at hst'
      obtain ⟨st, hst, rfl⟩ := List.mem_map.1 hst'
      by_cases hmem : st.seat_number ∈ b.seats
      · have hτ : releaseSeat b.seats st =
            { st with is_reserved := false, booking_id := none } := by
          simp [releaseSeat, hmem]
        rw [hτ] at hbid
        cases hbid
      · have hτ : releaseSeat b.seats st = st := by
          simp [releaseSeat, hmem]
        rw [hτ] at hbid ⊢
        obtain ⟨hres, b₀, hb₀, hbid₀, hact₀, hfl₀, hmem₀⟩ :=
          hI.owner _ hf₀ st hst bid hbid
        have hb₀ne : b₀.id ≠ b.id := by
          intro heq
          have hbb : b₀ = b := booking_id_inj hI hb₀ hb heq
          rw [hbb] at hmem₀
          exact hmem hmem₀
        refine ⟨hres, b₀, updateBooking_mem_of_ne hb₀ hb₀ne, hbid₀, hact₀,
          ?_, hmem₀⟩
        rw [mapSeats_id]
        exact hfl₀
    · obtain ⟨hres, b₀, hb₀, hbid₀, hact₀, hfl₀, hmem₀⟩ :=
        hI.owner _ hf₀ st' hst' bid hbid
      have hb₀ne : b₀.id ≠ b.id := by
        intro heq
        have hbb : b₀ = b := booking_id_inj hI hb₀ hb heq
        rw [hbb] at hfl₀
        exact hne (by rw [← hfl₀])
      exact ⟨hres, b₀, updateBooking_mem_of_ne hb₀ hb₀ne, hbid₀, hact₀,
        hfl₀, hmem₀⟩
  · intro f' hf' st' hst' hsr
    obtain ⟨f₀, hf₀, hcase⟩ := mem_updateFlight hf'
    rcases hcase with ⟨hfid₀, rfl⟩ | ⟨-, rfl⟩
    · rw [mapSeats_seats] at hst'
      obtain ⟨st, hst, rfl⟩ := List.mem_map.1 hst'
      by_cases hmem : st.seat_number ∈ b.seats
      · have hτ : releaseSeat b.seats st =
            { st with is_reserved := false, booking_id := none } := by
          simp [releaseSeat, hmem]
        rw [hτ] at hsr
        cases hsr
      · have hτ : releaseSeat b.seats st = st := by
          simp [releaseSeat, hmem]
        rw [hτ] at hsr ⊢
        exact hI.resOwner _ hf₀ st hst hsr
    · exact hI.resOwner _ hf₀ st' hst' hsr
  · intro x hx hactx n hn
    obtain ⟨b₀, hb₀, hcase⟩ := mem_updateBooking hx
    rcases hcase with ⟨hbeq, hxeq⟩ | ⟨hne, hxeq⟩
    · subst hxeq
      have h2 : activeStatus stat = true := hactx
      rw [hstat] at h2
      cases h2
    · subst hxeq
      obtain ⟨f₁, hf₁, hfid₁, st, hst, hnum, hown⟩ :=
        hI.claims _ hb₀ hactx n hn
      by_cases hcase : f₁.id = b.flight_id
      · have hnotmem : st.seat_number ∉ b.seats := by
          intro hmem
          have := hBowned f₁ hf₁ hcase st hst hmem
          rw [hown] at this
          injection this with this'
          exact hne this'
        have hτ : releaseSeat b.seats st = st := by
          simp [releaseSeat, hnotmem]
        refine ⟨mapSeats (releaseSeat b.seats) f₁,
          updateFlight_mem_of_eq hf₁ hcase, ?_, ?_⟩
        · rw [mapSeats_id]
          exact hfid₁
        · refine ⟨releaseSeat b.seats st, ?_, ?_, ?_⟩
          · rw [mapSeats_seats]
            exact List.mem_map_of_mem _ hst
          · rw [hτ]
            exact hnum
          · rw [hτ]
            exact hown
      · exact ⟨f₁, updateFlight_mem_of_ne hf₁ hcase, hfid₁, st, hst,
          hnum, hown⟩

theorem inv_finalize {s : SystemState} (hI : CoreInv s) {b : Booking}
    (hb : b ∈ s.bookings) (hact : activeStatus b.status = true)
    (o : POutcome) : CoreInv (finalize b o s).2 := by
  cases o
  · refine inv_updateActive hI hb hact ?_ ?_ ?_ ?_ _ <;> rfl
  · refine inv_updateActive hI hb hact ?_ ?_ ?_ ?_ _ <;> rfl

theorem inv_placeHold {s : SystemState} (hI : CoreInv s) (fid : Nat)
    (c : Contact) (ps : List Passenger) (ns : List String) (hm now : Nat) :
    CoreInv (placeHold fid c ps ns hm now s).2 := by
  unfold placeHold
  split
  · exact hI
  · rename_i f hfind
    split_ifs with hval
    · exact hI
    · split
      · exact hI
      · rename_i flights' hres
        exact inv_hold_ok hI hres rfl rfl rfl rfl

theorem inv_pay {s : SystemState} (hI : CoreInv s) (bid : Nat) (o : POutcome)
    (now : Nat) : CoreInv (pay bid o now s).2 := by
  unfold pay
  split
  · exact hI
  · rename_i b hfind
    have hbmem : b ∈ s.bookings := List.mem_of_find?_eq_some hfind
    split
    · rename_i hstatus
      split
      · rename_i t hexp
        split_ifs with hle
        · exact inv_releaseBooking hI hbmem (by rw [hstatus]; rfl) rfl
        · exact inv_finalize hI hbmem (by rw [hstatus]; rfl) o
      · exact inv_finalize hI hbmem (by rw [hstatus]; rfl) o
    · rename_i hstatus
      exact inv_finalize hI hbmem (by rw [hstatus]; rfl) o
    · exact hI

theorem inv_cancel {s : SystemState} (hI : CoreInv s) (bid : Nat) :
    CoreInv (cancel bid s).2 := by
  unfold cancel
  split
  · exact hI
  · rename_i b hfind
    have hbmem : b ∈ s.bookings := List.mem_of_find?_eq_some hfind
    split
    · rename_i hstatus
      exact inv_releaseBooking hI hbmem (by rw [hstatus]; rfl) rfl
    · rename_i hstatus
      exact inv_releaseBooking hI hbmem (by rw [hstatus]; rfl) rfl
    · exact hI

theorem reachable_inv {s : SystemState} (h : Reachable s) : CoreInv s := by
  induction h with
  | init s h0 => exact initOk_inv h0
  | hold fid c ps ns hm now s h ih => exact inv_placeHold ih fid c ps ns hm now
  | payment bid o now s h ih => exact inv_pay ih bid o now
  | cancellation bid s h ih => exact inv_cancel ih bid

/-! ## Core claim theorems -/

/-- C1: in every state reachable by the core's operations, every seat with
`is_reserved = true` has exactly one owning booking, and no two distinct
bookings with live seat claims (HELD, PAID or FAILED) simultaneously claim
the same seat of the same flight. -/
theorem c1_no_double_claims (s : SystemState) (h : Reachable s) :
    (∀ f ∈ s.flights, ∀ st ∈ f.seats, st.is_reserved = true →
      ∃ b ∈ s.bookings, st.booking_id = some b.id ∧
        ∀ b' ∈ s.bookings, st.booking_id = some b'.id → b' = b) ∧
    (∀ b₁ ∈ s.bookings, ∀ b₂ ∈ s.bookings,
      activeStatus b₁.status = true → activeStatus b₂.status = true →
      b₁.flight_id = b₂.flight_id →
      ∀ n, n ∈ b₁.seats → n ∈ b₂.seats → b₁ = b₂) := by
  have hI := reachable_inv h
  constructor
  · intro f hf st hst hres
    have hsome := hI.resOwner f hf st hst hres
    cases hbid : st.booking_id with
    | none =>
        rw [hbid] at hsome
        cases hsome
    | some bid =>
        obtain ⟨-, b, hb, hbid', -, -, -⟩ := hI.owner f hf st hst bid hbid
        refine ⟨b, hb, by rw [hbid'], ?_⟩
        intro b' hb' hb'id
        injection hb'id with heq
        exact booking_id_inj hI hb' hb (heq.symm.trans hbid'.symm)
  · intro b₁ hb₁ b₂ hb₂ hact₁ hact₂ hfl n hn₁ hn₂
    obtain ⟨f₁, hf₁, hfid₁, st₁, hst₁, hnum₁, hown₁⟩ :=
      hI.claims b₁ hb₁ hact₁ n hn₁
    obtain ⟨f₂, hf₂, hfid₂, st₂, hst₂, hnum₂, hown₂⟩ :=
      hI.claims b₂ hb₂ hact₂ n hn₂
    have hff : f₁ = f₂ := flight_id_inj hI hf₁ hf₂ (by rw [hfid₁, hfid₂, hfl])
    subst hff
    have hss : st₁ = st₂ :=
      seat_number_inj hI hf₁ hst₁ hst₂ (by rw [hnum₁, hnum₂])
    subst hss
    rw [hown₁] at hown₂
    injection hown₂ with heq
    exact booking_id_inj hI hb₁ hb₂ heq

/-- C2: in every state reachable by the core's operations — in particular
after every reserve or release — every flight's `seats_left` equals the
number of its seats with `is_reserved = false`. -/
theorem c2_seats_left_consistent (s : SystemState) (h : Reachable s) :
    ∀ f ∈ s.flights,
      f.seats_left = f.seats.countP (fun st => !st.is_reserved) :=
  (reachable_inv h).left

/-- The hold that produces `stateHeld` is a reachable step from the fresh
initial state. -/
theorem stateHeld_reachable : Reachable stateHeld :=
  Reachable.hold 1 contact0 [pax1, pax2] ["A1", "A2"] 15 0 state0
    (Reachable.init state0 ⟨rfl, by decide, by decide, by decide, by decide⟩)

/-- C1 witness: the invariant instantiated at the concrete held state. -/
theorem c1_witness :
    (∀ f ∈ stateHeld.flights, ∀ st ∈ f.seats, st.is_reserved = true →
      ∃ b ∈ stateHeld.bookings, st.booking_id = some b.id ∧
        ∀ b' ∈ stateHeld.bookings, st.booking_id = some b'.id → b' = b) ∧
    (∀ b₁ ∈ stateHeld.bookings, ∀ b₂ ∈ stateHeld.bookings,
      activeStatus b₁.status = true → activeStatus b₂.status = true →
      b₁.flight_id = b₂.flight_id →
      ∀ n, n ∈ b₁.seats → n ∈ b₂.seats → b₁ = b₂) :=
  c1_no_double_claims stateHeld stateHeld_reachable

/-- C2 witness: `seats_left` consistency instantiated at the concrete flight
of the held state. -/
theorem c2_witness :
    flight1Held.seats_left =
      flight1Held.seats.countP (fun st => !st.is_reserved) :=
  c2_seats_left_consistent stateHeld stateHeld_reachable flight1Held
    (by decide)

/-! ## Error behaviour of the operations -/

theorem updateBooking_eq_of_id {bid : Nat} {b' : Booking} {l : List Booking}
    {x : Booking} (hx : x ∈ updateBooking bid b' l) (hid : x.id = bid) :
    x = b' := by
  obtain ⟨b₀, hb₀, hcase⟩ := mem_updateBooking hx
  rcases hcase with ⟨-, hxeq⟩ | ⟨hne, hxeq⟩
  · exact hxeq
  · subst hxeq
    exact absurd hid hne

theorem release_clears {fid : Nat} {ns : List String} {l : List Flight} :
    ∀ f ∈ release fid ns l, f.id = fid →
      ∀ st ∈ f.seats, st.seat_number ∈ ns →
        st.is_reserved = false ∧ st.booking_id = none := by
  intro f hf hfid st hst hmem
  obtain ⟨f₀, hf₀, hcase⟩ := mem_updateFlight hf
  rcases hcase with ⟨-, rfl⟩ | ⟨hne, rfl⟩
  · rw [mapSeats_seats] at hst
    obtain ⟨st₀, hst₀, rfl⟩ := List.mem_map.1 hst
    have hmem' : st₀.seat_number ∈ ns := by
      rwa [releaseSeat_number] at hmem
    constructor <;> simp [releaseSeat, hmem']
  · exact absurd hfid hne

theorem placeHold_state (fid : Nat) (c : Contact) (ps : List Passenger)
    (ns : List String) (hm now : Nat) (s : SystemState) :
    (placeHold fid c ps ns hm now s).2 = s ∨
      ∃ b, (placeHold fid c ps ns hm now s).1 = .ok b := by
  unfold placeHold
  split
  · exact Or.inl rfl
  · split_ifs
    · exact Or.inl rfl
    · split
      · exact Or.inl rfl
      · exact Or.inr ⟨_, rfl⟩

theorem cancel_state (bid : Nat) (s : SystemState) :
    (cancel bid s).2 = s ∨ ∃ b, (cancel bid s).1 = .ok b := by
  unfold cancel
  split
  · exact Or.inl rfl
  · split
    · exact Or.inr ⟨_, rfl⟩
    · exact Or.inr ⟨_, rfl⟩
    · exact Or.inl rfl

theorem finalize_ok (b : Booking) (o : POutcome) (s : SystemState) :
    ∃ b', (finalize b o s).1 = .ok b' := by
  cases o
  · exact ⟨_, rfl⟩
  · exact ⟨_, rfl⟩

theorem pay_state (bid : Nat) (o : POutcome) (now : Nat) (s : SystemState) :
    (pay bid o now s).2 = s ∨ (∃ b, (pay bid o now s).1 = .ok b) ∨
      (pay bid o now s).1 = .error .Expired := by
  unfold pay
  split
  · exact Or.inl rfl
  · split
    · split
      · split_ifs
        · exact Or.inr (Or.inr rfl)
        · exact Or.inr (Or.inl (finalize_ok _ _ _))
      · exact Or.inr (Or.inl (finalize_ok _ _ _))
    · exact Or.inr (Or.inl (finalize_ok _ _ _))
    · exact Or.inl rfl

/-- C3 counterexample: `pay` on a HELD booking whose hold has expired is a
failed operation (it returns an error), yet it mutates the state — so "every
failed core operation leaves Booking and Inventory state unchanged" is false
as stated. -/
theorem c3_counterexample :
    (pay 1 .SUCCESS 20 stateHeld).1 = .error .Expired ∧
    (pay 1 .SUCCESS 20 stateHeld).2 ≠ stateHeld := by
  constructor
  · rfl
  · decide

/-- C3 (amended): a `placeHold` whose inputs pass validation and that
requests a seat already reserved by a different booking returns Conflict
with the state fully unchanged (no seat mutated, no Booking created); a
failed `placeHold` or `cancel` always leaves the state unchanged; and a
failed `pay` leaves the state unchanged except when it reports Expired
(the lazy hold-expiry transition). -/
theorem c3_failed_ops_atomic :
    (∀ fid (c : Contact) (ps : List Passenger) (ns : List String)
      (hm now : Nat) (s : SystemState) (f : Flight) (st : Seat),
      s.flights.find? (fun g => g.id == fid) = some f →
      ¬ (ns.length = 0 ∨ ps.length ≠ ns.length ∨ c.name = "" ∨
          validEmail c.email = false) →
      st ∈ f.seats → st.seat_number ∈ ns → st.is_reserved = true →
      st.booking_id ≠ some s.next_booking_id →
      placeHold fid c ps ns hm now s = (.error .Conflict, s)) ∧
    (∀ fid c ps ns hm now s e,
      (placeHold fid c ps ns hm now s).1 = .error e →
      (placeHold fid c ps ns hm now s).2 = s) ∧
    (∀ bid s e, (cancel bid s).1 = .error e → (cancel bid s).2 = s) ∧
    (∀ bid o now s e, (pay bid o now s).1 = .error e →
      (pay bid o now s).2 = s ∨ e = .Expired) := by
  refine ⟨?_, ?_, ?_, ?_⟩
  · intro fid c ps ns hm now s f st hfind hval hst hmem hres hne
    have hconf : ∃ st ∈ f.seats, seatConflict ns s.next_booking_id st :=
      ⟨st, hst, hmem, hres, hne⟩
    have hresv : reserve fid ns s.next_booking_id s.flights =
        .error .Conflict := by
      simp only [reserve, hfind]
      rw [if_pos hconf]
    simp only [placeHold, hfind]
    rw [if_neg hval, hresv]
  · intro fid c ps ns hm now s e h
    rcases placeHold_state fid c ps ns hm now s with h2 | ⟨b, h2⟩
    · exact h2
    · rw [h2] at h
      cases h
  · intro bid s e h
    rcases cancel_state bid s with h2 | ⟨b, h2⟩
    · exact h2
    · rw [h2] at h
      cases h
  · intro bid o now s e h
    rcases pay_state bid o now s with h2 | ⟨b, h2⟩ | h2
    · exact Or.inl h2
    · rw [h2] at h
      cases h
    · rw [h2] at h
      injection h with h3
      exact Or.inr h3.symm

/-- C3 witness: a conflicting second hold on seat A1 fails with Conflict and
leaves the held state untouched, and concrete failed operations leave the
state unchanged. -/
theorem c3_witness :
    placeHold 1 contact0 [pax1] ["A1"] 15 0 stateHeld =
      (.error .Conflict, stateHeld) ∧
    (placeHold 999 contact0 [pax1] ["A1"] 15 0 state0).2 = state0 ∧
    (cancel 99 state0).2 = state0 ∧
    ((pay 99 .SUCCESS 0 state0).2 = state0 ∨ BError.NotFound = .Expired) :=
  ⟨c3_failed_ops_atomic.1 1 contact0 [pax1] ["A1"] 15 0 stateHeld
      flight1Held seatA1Held (by decide) (by decide) (by decide) (by decide)
      rfl (by decide),
    c3_failed_ops_atomic.2.1 999 contact0 [pax1] ["A1"] 15 0 state0
      .NotFound rfl,
    c3_failed_ops_atomic.2.2.1 99 state0 .NotFound rfl,
    c3_failed_ops_atomic.2.2.2 99 .SUCCESS 0 state0 .NotFound rfl⟩

/-- C4: `pay` on a HELD booking whose hold has already passed transitions it
to EXPIRED, releases all its seats, reports Expired instead of charging, and
assigns no payment reference or PNR. -/
theorem c4_pay_expired (bid now : Nat) (o : POutcome) (s : SystemState)
    (b : Booking) (t : Nat)
    (hfind : s.bookings.find? (fun x => x.id == bid) = some b)
    (hstatus : b.status = .HELD)
    (hexp : b.hold_expires_at = some t) (hle : t ≤ now) :
    (pay bid o now s).1 = .error .Expired ∧
    (∀ x ∈ (pay bid o now s).2.bookings, x.id = b.id →
      x.status = .EXPIRED ∧ x.pnr = b.pnr ∧
      x.payment_reference = b.payment_reference) ∧
    (∀ f ∈ (pay bid o now s).2.flights, f.id = b.flight_id →
      ∀ st ∈ f.seats, st.seat_number ∈ b.seats →
        st.is_reserved = false ∧ st.booking_id = none) ∧
    (pay bid o now s).2.next_ref = s.next_ref := by
  have hpay : pay bid o now s =
      (.error .Expired,
       { s with
         bookings := updateBooking b.id { b with status := .EXPIRED }
           s.bookings,
         flights := release b.flight_id b.seats s.flights }) := by
    simp only [pay, hfind, hstatus, hexp]
    rw [if_pos hle]
  rw [hpay]
  refine ⟨rfl, ?_, ?_, rfl⟩
  · intro x hx hxid
    have hxb := updateBooking_eq_of_id hx hxid
    rw [hxb]
    exact ⟨rfl, rfl, rfl⟩
  · intro f hf hfid st hst hmem
    exact release_clears f hf hfid st hst hmem

/-- C4 witness: paying the expired sample hold at time 20 expires it and
frees its seats. -/
theorem c4_witness :
    (pay 1 .SUCCESS 20 stateHeld).1 = .error .Expired ∧
    (∀ x ∈ (pay 1 .SUCCESS 20 stateHeld).2.bookings, x.id = bookingHeld.id →
      x.status = .EXPIRED ∧ x.pnr = bookingHeld.pnr ∧
      x.payment_reference = bookingHeld.payment_reference) ∧
    (∀ f ∈ (pay 1 .SUCCESS 20 stateHeld).2.flights,
      f.id = bookingHeld.flight_id →
      ∀ st ∈ f.seats, st.seat_number ∈ bookingHeld.seats →
        st.is_reserved = false ∧ st.booking_id = none) ∧
    (pay 1 .SUCCESS 20 stateHeld).2.next_ref = stateHeld.next_ref :=
  c4_pay_expired 1 20 .SUCCESS stateHeld bookingHeld 15 (by decide) rfl rfl
    (by decide)

/-- C5: `cancel` succeeds exactly when the booking is HELD or FAILED, in
which case it sets status CANCELLED and releases the booking's seats; on a
PAID, CANCELLED or EXPIRED booking it returns Conflict and the state — in
particular all seat state — is unchanged. -/
theorem c5_cancel_spec (bid : Nat) (s : SystemState) (b : Booking)
    (hfind : s.bookings.find? (fun x => x.id == bid) = some b) :
    ((∃ b', (cancel bid s).1 = .ok b') ↔
      (b.status = .HELD ∨ b.status = .FAILED)) ∧
    ((b.status = .HELD ∨ b.status = .FAILED) →
      (∀ x ∈ (cancel bid s).2.bookings, x.id = b.id →
        x.status = .CANCELLED) ∧
      (∀ f ∈ (cancel bid s).2.flights, f.id = b.flight_id →
        ∀ st ∈ f.seats, st.seat_number ∈ b.seats →
          st.is_reserved = false ∧ st.booking_id = none)) ∧
    ((b.status = .PAID ∨ b.status = .CANCELLED ∨ b.status = .EXPIRED) →
      cancel bid s = (.error .Conflict, s)) := by
  have hcan : ∀ hst : b.status = .HELD ∨ b.status = .FAILED,
      cancel bid s =
        (.ok { b with status := .CANCELLED },
         { s with
           bookings := updateBooking b.id { b with status := .CANCELLED }
             s.bookings,
           flights := release b.flight_id b.seats s.flights }) := by
    intro hst
    rcases hst with hst | hst <;> simp only [cancel, hfind, hst]
  have hconf : ∀ hst : b.status = .PAID ∨ b.status = .CANCELLED ∨
      b.status = .EXPIRED, cancel bid s = (.error .Conflict, s) := by
    intro hst
    rcases hst with hst | hst | hst <;> simp only [cancel, hfind, hst]
  refine ⟨?_, ?_, hconf⟩
  · constructor
    · intro hok
      by_contra hnot
      have hst : b.status = .PAID ∨ b.status = .CANCELLED ∨
          b.status = .EXPIRED := by
        cases hb : b.status <;> simp [hb] at hnot ⊢
      rw [hconf hst] at hok
      obtain ⟨b', hb'⟩ := hok
      cases hb'
    · intro hst
      rw [hcan hst]
      exact ⟨_, rfl⟩
  · intro hst
    rw [hcan hst]
    constructor
    · intro x hx hxid
      have hxb := updateBooking_eq_of_id hx hxid
      rw [hxb]
    · intro f hf hfid st hst' hmem
      exact release_clears f hf hfid st hst' hmem

/-- C5 witness: cancelling the held sample booking succeeds and frees the
seats; cancelling it again after a successful payment fails with Conflict
and changes nothing. -/
theorem c5_witness :
    ((∃ b', (cancel 1 stateHeld).1 = .ok b') ↔
      (bookingHeld.status = .HELD ∨ bookingHeld.status = .FAILED)) ∧
    ((bookingHeld.status = .HELD ∨ bookingHeld.status = .FAILED) →
      (∀ x ∈ (cancel 1 stateHeld).2.bookings, x.id = bookingHeld.id →
        x.status = .CANCELLED) ∧
      (∀ f ∈ (cancel 1 stateHeld).2.flights, f.id = bookingHeld.flight_id →
        ∀ st ∈ f.seats, st.seat_number ∈ bookingHeld.seats →
          st.is_reserved = false ∧ st.booking_id = none)) ∧
    ((bookingHeld.status = .PAID ∨ bookingHeld.status = .CANCELLED ∨
        bookingHeld.status = .EXPIRED) →
      cancel 1 stateHeld = (.error .Conflict, stateHeld)) :=
  c5_cancel_spec 1 stateHeld bookingHeld (by decide)

/-- C6: a FAIL payment outcome on an unexpired HELD booking sets status
FAILED, assigns a payment reference, and leaves the inventory (hence all the
booking's seats) untouched; from FAILED a retry is permitted and yields PAID
on SUCCESS or FAILED on FAIL, with the same side effects. -/
theorem c6_fail_and_retry :
    (∀ bid now s (b : Booking) (t : Nat),
      s.bookings.find? (fun x => x.id == bid) = some b →
      b.status = .HELD → b.hold_expires_at = some t → now < t →
      ∃ b', (pay bid .FAIL now s).1 = .ok b' ∧ b'.status = .FAILED ∧
        b'.payment_reference = some s.next_ref ∧
        (pay bid .FAIL now s).2.flights = s.flights ∧
        (∀ x ∈ (pay bid .FAIL now s).2.bookings, x.id = b.id → x = b')) ∧
    (∀ bid now s (b : Booking) (o : POutcome),
      s.bookings.find? (fun x => x.id == bid) = some b →
      b.status = .FAILED →
      ∃ b', (pay bid o now s).1 = .ok b' ∧
        (o = .SUCCESS → b'.status = .PAID) ∧
        (o = .FAIL → b'.status = .FAILED) ∧
        b'.payment_reference = some s.next_ref ∧
        (pay bid o now s).2.flights = s.flights ∧
        (∀ x ∈ (pay bid o now s).2.bookings, x.id = b.id → x = b')) := by
  constructor
  · intro bid now s b t hfind hstatus hexp hlt
    have hpay : pay bid .FAIL now s = finalize b .FAIL s := by
      simp only [pay, hfind, hstatus, hexp]
      rw [if_neg (Nat.not_le.2 hlt)]
    rw [hpay]
    refine ⟨_, rfl, rfl, rfl, rfl, ?_⟩
    intro x hx hxid
    exact updateBooking_eq_of_id hx hxid
  · intro bid now s b o hfind hstatus
    have hpay : pay bid o now s = finalize b o s := by
      simp only [pay, hfind, hstatus]
    rw [hpay]
    cases o
    · refine ⟨_, rfl, fun _ => rfl, ?_, rfl, rfl, ?_⟩
      · intro h
        exact absurd h (by decide)
      · intro x hx hxid
        exact updateBooking_eq_of_id hx hxid
    · refine ⟨_, rfl, ?_, fun _ => rfl, rfl, rfl, ?_⟩
      · intro h
        exact absurd h (by decide)
      · intro x hx hxid
        exact updateBooking_eq_of_id hx hxid

/-- C6 witness: a forced FAIL on the held sample booking yields a FAILED
booking with a payment reference and untouched flights, and a retry on the
resulting FAILED booking succeeds with outcome SUCCESS. -/
theorem c6_witness :
    (∃ b', (pay 1 .FAIL 5 stateHeld).1 = .ok b' ∧ b'.status = .FAILED ∧
      b'.payment_reference = some stateHeld.next_ref ∧
      (pay 1 .FAIL 5 stateHeld).2.flights = stateHeld.flights ∧
      (∀ x ∈ (pay 1 .FAIL 5 stateHeld).2.bookings, x.id = bookingHeld.id →
        x = b')) ∧
    (∃ b', (pay 1 .SUCCESS 6 stateFailed).1 = .ok b' ∧
      (POutcome.SUCCESS = .SUCCESS → b'.status = .PAID) ∧
      (POutcome.SUCCESS = .FAIL → b'.status = .FAILED) ∧
      b'.payment_reference = some stateFailed.next_ref ∧
      (pay 1 .SUCCESS 6 stateFailed).2.flights = stateFailed.flights ∧
      (∀ x ∈ (pay 1 .SUCCESS 6 stateFailed).2.bookings,
        x.id = bookingFailed.id → x = b')) :=
  ⟨c6_fail_and_retry.1 1 5 stateHeld bookingHeld 15 (by decide) rfl rfl
      (by decide),
    c6_fail_and_retry.2 1 6 stateFailed bookingFailed .SUCCESS (by decide)
      rfl⟩

/-- C7: a successful `placeHold` snapshots `total_amount` as the sum of the
requested seats' prices in the state at hold time, and a later seat-price
change does not touch the booking directory, so no booking's `total_amount`
changes. -/
theorem c7_total_amount_snapshot :
    (∀ fid (c : Contact) (ps : List Passenger) (ns : List String)
      (hm now : Nat) (s : SystemState) (b : Booking),
      (placeHold fid c ps ns hm now s).1 = .ok b →
      ∃ f, s.flights.find? (fun g => g.id == fid) = some f ∧
        b.total_amount = seatTotal f ns) ∧
    (∀ fid n p s, (setSeatPrice fid n p s).bookings = s.bookings) := by
  constructor
  · intro fid c ps ns hm now s b h
    unfold placeHold at h
    split at h
    · cases h
    · rename_i f hfind
      split_ifs at h with hval
      cases hres : reserve fid ns s.next_booking_id s.flights with
      | error e => simp [hres] at h
      | ok flights' =>
          simp only [hres] at h
          injection h with heq
          exact ⟨f, hfind, by rw [← heq]⟩
  · intro fid n p s
    rfl

/-- C7 witness: the sample hold of A1 (price 100) and A2 (price 120) has
`total_amount` 220, and a price change afterwards leaves the booking
directory untouched. -/
theorem c7_witness :
    (∃ f, state0.flights.find? (fun g => g.id == 1) = some f ∧
      bookingHeld.total_amount = seatTotal f ["A1", "A2"]) ∧
    bookingHeld.total_amount = 220 ∧
    (setSeatPrice 1 "A1" 999 stateHeld).bookings = stateHeld.bookings :=
  ⟨c7_total_amount_snapshot.1 1 contact0 [pax1, pax2] ["A1", "A2"] 15 0
      state0 bookingHeld rfl,
    by decide,
    c7_total_amount_snapshot.2 1 "A1" 999 stateHeld⟩

/-- C8 counterexample: `placeHold` on a missing flight reports NotFound, not
the Validation error the claim requires for every failed validation
condition. -/
theorem c8_counterexample :
    (placeHold 999 contact0 [pax1] ["A1"] 15 0 state0).1 =
      .error .NotFound ∧
    BError.NotFound ≠ BError.Validation := by
  constructor
  · rfl
  · decide

/-- C8 (amended): `placeHold` returns an error and creates no Booking —
leaving the state unchanged — unless the flight exists, the seat count is
positive, the passenger count equals the seat count, and the contact has a
non-empty name and a syntactically valid email; the error is NotFound when
the flight is missing and Validation otherwise. -/
theorem c8_placeHold_validation (fid : Nat) (c : Contact)
    (ps : List Passenger) (ns : List String) (hm now : Nat)
    (s : SystemState) :
    (s.flights.find? (fun g => g.id == fid) = none →
      placeHold fid c ps ns hm now s = (.error .NotFound, s)) ∧
    (∀ f, s.flights.find? (fun g => g.id == fid) = some f →
      (ns.length = 0 ∨ ps.length ≠ ns.length ∨ c.name = "" ∨
        validEmail c.email = false) →
      placeHold fid c ps ns hm now s = (.error .Validation, s)) := by
  constructor
  · intro h
    simp only [placeHold, h]
  · intro f h hbad
    simp only [placeHold, h]
    rw [if_pos hbad]

/-- C8 witness: a hold on a missing flight fails with NotFound, and a hold
with a malformed contact email fails with Validation; both leave the state
unchanged. -/
theorem c8_witness :
    placeHold 999 contact0 [pax1] ["A1"] 15 0 state0 =
      (.error .NotFound, state0) ∧
    placeHold 1 ⟨"Asha", "not-an-email", ""⟩ [pax1] ["A1"] 15 0 state0 =
      (.error .Validation, state0) :=
  ⟨(c8_placeHold_validation 999 contact0 [pax1] ["A1"] 15 0 state0).1
      (by decide),
    (c8_placeHold_validation 1 ⟨"Asha", "not-an-email", ""⟩ [pax1] ["A1"]
        15 0 state0).2 flight1 (by decide)
      (Or.inr (Or.inr (Or.inr (by decide))))⟩
